import Mathlib

/-
Verification of the TrendFollowing repository.

Shallow embedding of the core computations of the repository:
  - strategy.py   : TrendFollowingStrategy.next / notify_order (per-bar state
                    machine, position sizing, trailing stop)
  - optimization.py : run_single_optimization / run_optimization (grid sweep,
                    sentinel results, combined score, argmax selection)
  - analysis.py   : calculate_sharpe_ratio / analyze_performance

Money amounts and prices are modelled as exact rationals; Python float
division is modelled as exact division on Q, with a zero denominator made
explicit as an Option none (Python would raise ZeroDivisionError).
-/

/- Python `int(x)` truncates toward zero: floor for nonnegative x, ceiling
for negative x. -/
def pyInt (x : ℚ) : ℤ :=
  if 0 ≤ x then ⌊x⌋ else ⌈x⌉

/- strategy.py, TrendFollowingStrategy.next, entry branch:
     risk_amount = portfolio_value * risk_per_trade
     stop_loss_distance = max(smoothed_atr * trailing_stop_multiplier, min_stop_loss)
     size = int(risk_amount / (stop_loss_distance * (1 + commission)))
The division is unguarded in the source: when the denominator is zero Python
raises ZeroDivisionError, modelled here as `none`. -/
def compute_size (equity risk_fraction smoothed_atr stop_multiplier min_stop commission_rate : ℚ) :
    Option ℤ :=
  let risk_amount := equity * risk_fraction
  let stop_distance := max (smoothed_atr * stop_multiplier) min_stop
  let denom := stop_distance * (1 + commission_rate)
  if denom = 0 then none else some (pyInt (risk_amount / denom))

/- strategy.py, TrendFollowingStrategy.next:
     if size <= 0: return        (no trade is placed)
`some 0` means "no trade"; `some (n+1)` means a buy of that many shares would
be submitted; `none` means the sizing expression itself raised. -/
def size_decision (equity risk_fraction smoothed_atr stop_multiplier min_stop commission_rate : ℚ) :
    Option ℕ :=
  match compute_size equity risk_fraction smoothed_atr stop_multiplier min_stop commission_rate with
  | none => none
  | some s => if s ≤ 0 then some 0 else some s.toNat

/- strategy.py, TrendFollowingStrategy.next, trailing-stop branch:
     new_stop = close - smoothed_atr * trailing_stop_multiplier
     elif new_stop > self.current_stop: self.current_stop = new_stop
The stop is replaced only when the candidate strictly exceeds it. -/
def trailingUpdate (stop close smoothed_atr stop_multiplier : ℚ) : ℚ :=
  let new_stop := close - smoothed_atr * stop_multiplier
  if new_stop > stop then new_stop else stop

/- The sequence of stop values produced by a run of per-bar updates, one
(close, smoothed_atr) pair per bar, starting from an initial stop. -/
def stopTrace (stop0 stop_multiplier : ℚ) (bars : List (ℚ × ℚ)) : List ℚ :=
  List.scanl (fun s pr => trailingUpdate s pr.1 pr.2 stop_multiplier) stop0 bars

/- Side of an order: the strategy only issues market buys and sells. -/
inductive OrderSide
  | buy
  | sell
deriving DecidableEq, Repr

/- An order request emitted by the strategy to the broker. -/
structure OrderReq where
  side : OrderSide
  size : ℕ
deriving DecidableEq, Repr

/- backtrader order statuses handled by notify_order. -/
inductive OrderStatus
  | submitted
  | accepted
  | completed
  | canceled
  | margin
  | rejected
deriving DecidableEq, Repr

/- An order fill notification from the broker, with executed price and size. -/
structure OrderFill where
  status : OrderStatus
  side : OrderSide
  price : ℚ
  size : ℕ
deriving DecidableEq, Repr

/- The strategy parameters of strategy.py (`params` tuple). The moving-average
and ATR periods shape the externally computed indicator stream and are carried
for completeness. -/
structure StratParams where
  fast_ma_period : ℕ
  slow_ma_period : ℕ
  risk_per_trade : ℚ
  atr_period : ℕ
  atr_smooth_period : ℕ
  trailing_stop_multiplier : ℚ
  min_stop_loss : ℚ
  commission : ℚ
deriving DecidableEq, Repr

/- The default parameter values of strategy.py. -/
def defaultParams : StratParams :=
  { fast_ma_period := 12
    slow_ma_period := 25
    risk_per_trade := 3 / 100
    atr_period := 10
    atr_smooth_period := 3
    trailing_stop_multiplier := 22 / 10
    min_stop_loss := 1 / 2
    commission := 1 / 1000 }

/- Mutable state of one TrendFollowingStrategy instance: the pending-order
slot (`self.order`), the broker-held position size, and the bookkeeping
variables set in __init__. A single Option slot holds the outstanding order,
exactly as the source keeps a single `self.order` reference. -/
structure StratState where
  order : Option OrderSide
  position : ℕ
  entry_price : Option ℚ
  current_stop : Option ℚ
  trade_count : ℕ
deriving DecidableEq, Repr

/- The initial state set by __init__ (no order, no position). -/
def initState : StratState :=
  { order := none, position := 0, entry_price := none, current_stop := none, trade_count := 0 }

/- Per-bar inputs read by next(): the bar close, the sign of the moving-average
crossover, the smoothed ATR, and the broker portfolio value. All are supplied
by the external engine and indicator collaborators. -/
structure BarCtx where
  close : ℚ
  crossover : ℚ
  smoothed_atr : ℚ
  equity : ℚ
deriving DecidableEq, Repr

/- strategy.py, end of the held-position branch of next(): after the stop
update, sell when the close falls below the current trailing stop. -/
def checkStopTrigger (st : StratState) (b : BarCtx) : StratState × Option OrderReq :=
  match st.current_stop with
  | some cs =>
      if b.close < cs then
        ({ st with order := some OrderSide.sell }, some ⟨OrderSide.sell, st.position⟩)
      else (st, none)
  | none => (st, none)

/- strategy.py, TrendFollowingStrategy.next, one bar of the state machine.
Returns `none` when the Python code would raise (zero stop distance in the
sizing division, or stop arithmetic on a missing entry price); otherwise the
updated state together with the order request submitted this bar, if any.
Order submission (`self.buy` / `self.sell`) is modelled as succeeding; the
source wraps it in try/except and on failure would only log, leaving the
state unchanged. -/
def nextBar (p : StratParams) (st : StratState) (b : BarCtx) :
    Option (StratState × Option OrderReq) :=
  if st.order.isSome then
    some (st, none)
  else if st.position = 0 then
    if 0 < b.crossover then
      match size_decision b.equity p.risk_per_trade b.smoothed_atr
          p.trailing_stop_multiplier p.min_stop_loss p.commission with
      | none => none
      | some 0 => some (st, none)
      | some (n + 1) => some ({ st with order := some OrderSide.buy }, some ⟨OrderSide.buy, n + 1⟩)
    else some (st, none)
  else
    if b.crossover < 0 then
      some ({ st with order := some OrderSide.sell }, some ⟨OrderSide.sell, st.position⟩)
    else
      match st.current_stop, st.entry_price with
      | none, none => none
      | none, some e =>
          let cs0 := e - max (b.smoothed_atr * p.trailing_stop_multiplier) p.min_stop_loss
          checkStopTrigger { st with current_stop := some cs0 } b
      | some cs, _ =>
          let cs1 := trailingUpdate cs b.close b.smoothed_atr p.trailing_stop_multiplier
          checkStopTrigger { st with current_stop := some cs1 } b

/- strategy.py, TrendFollowingStrategy.notify_order. Submitted/Accepted
notifications return early leaving the pending order in place; every other
status clears `self.order`. A completed buy records the entry price, seeds
the trailing stop from the smoothed ATR at notification time, and bumps the
trade count; a completed sell clears the trade bookkeeping. The broker-side
position change carried by the fill is applied to `position`. -/
def notify_order (p : StratParams) (st : StratState) (f : OrderFill) (smoothed_atr : ℚ) :
    StratState :=
  match f.status with
  | OrderStatus.submitted => st
  | OrderStatus.accepted => st
  | OrderStatus.completed =>
      match f.side with
      | OrderSide.buy =>
          let stop_loss_distance := max (smoothed_atr * p.trailing_stop_multiplier) p.min_stop_loss
          { st with
              order := none
              position := st.position + f.size
              entry_price := some f.price
              current_stop := some (f.price - stop_loss_distance)
              trade_count := st.trade_count + 1 }
      | OrderSide.sell =>
          { st with
              order := none
              position := st.position - f.size
              entry_price := none
              current_stop := none
              trade_count := st.trade_count + 1 }
  | OrderStatus.canceled => { st with order := none }
  | OrderStatus.margin => { st with order := none }
  | OrderStatus.rejected => { st with order := none }

/- One external event driving the strategy: either a new bar (triggering
next()) or an order notification (triggering notify_order, which never emits
an order request). The smoothed ATR at notification time rides along with
the fill. -/
inductive StratEvent
  | bar (b : BarCtx)
  | fill (f : OrderFill) (smoothed_atr : ℚ)

/- One step of a strategy run. -/
def stepEvent (p : StratParams) (st : StratState) : StratEvent → Option (StratState × Option OrderReq)
  | StratEvent.bar b => nextBar p st b
  | StratEvent.fill f a => some (notify_order p st f a, none)

/- A pending entry order is outstanding (`self.order` holds a buy). -/
def pendingEntry (st : StratState) : Prop := st.order = some OrderSide.buy

/- A pending exit order is outstanding (`self.order` holds a sell). -/
def pendingExit (st : StratState) : Prop := st.order = some OrderSide.sell

/- One OHLCV market bar as formatted by data_loader.fetch_data (`open` is a
Lean keyword, so that column is named `opn`). -/
structure Bar where
  close : ℚ
  high : ℚ
  low : ℚ
  opn : ℚ
  volume : ℚ
deriving DecidableEq, Repr

/- One row of the sweep's result table: the tuple
(fast_ma, slow_ma, score, total_return, drawdown, params_tested) returned by
optimization.run_single_optimization. -/
structure OptResult where
  fast : ℕ
  slow : ℕ
  score : ℚ
  total_return : ℚ
  drawdown : ℚ
  label : String
deriving DecidableEq, Repr

/- optimization.py, run_single_optimization, missing-data branch:
     return (fast_ma, slow_ma, 0, 0, 100, "No data")
100 is the configured failure-penalty drawdown. -/
def sentinelResult (fast slow : ℕ) : OptResult :=
  { fast := fast, slow := slow, score := 0, total_return := 0, drawdown := 100, label := "No data" }

/- optimization.py, run_single_optimization, scoring line:
     score = total_return / max(1, drawdown) -/
def sweep_score (total_return drawdown : ℚ) : ℚ :=
  total_return / max 1 drawdown

/- optimization.py, run_single_optimization, body after the fetch_data call.
The backtest engine run is an external collaborator; the ending broker value
and the drawdown analyzer's reading (`none` when
`results[0][0].analyzers.drawdown...` raises, in which case the source's
except branch sets drawdown = 100) are inputs. The data_df parameter
transcribes the `if data_df is None or data_df.empty` sentinel guard exactly
as written in the source; in the program as executed that guard is
unreachable, because fetch_data raises ValueError instead of ever returning
None or an empty frame — see fetch_data and run_single_optimization_exec
below for the executed error path. -/
def run_single_optimization (fast slow : ℕ) (cash : ℚ) (data_df : Option (List Bar))
    (ending_value : ℚ) (drawdown_analysis : Option ℚ) : OptResult :=
  match data_df with
  | none => sentinelResult fast slow
  | some df =>
      if df.isEmpty then sentinelResult fast slow
      else
        let total_return := (ending_value - cash) / cash * 100
        let drawdown := drawdown_analysis.getD 100
        let score := sweep_score total_return drawdown
        { fast := fast, slow := slow, score := score, total_return := total_return,
          drawdown := drawdown,
          label := "fast_ma_period=" ++ toString fast ++ ", slow_ma_period=" ++ toString slow }

/- optimization.py, run_optimization, grid construction:
     [(...) for fast_ma in fasts for slow_ma in slows if slow_ma > fast_ma]
The constant per-run fields (ticker, dates, cash) are dropped from the grid
points; only the varying (fast, slow) pair is kept. -/
def param_grid : List ℕ → List ℕ → List (ℕ × ℕ)
  | [], _ => []
  | f :: fs, slows =>
      (slows.filter (fun s => decide (f < s))).map (fun s => (f, s)) ++ param_grid fs slows

/- The candidate lists hard-coded in optimization.run_optimization. -/
def fast_ma_candidates : List ℕ := [5, 7, 10, 12, 15, 20, 25, 30, 35, 50, 60, 75]

/- The slow-period candidates of optimization.run_optimization. -/
def slow_ma_candidates : List ℕ := [15, 20, 25, 30, 40, 50, 60, 75, 100, 150, 200]

/- data_loader.fetch_data, reduced to its observable contract: the download
outcome for the requested ticker/date range is the external input; when the
download is empty the function raises ValueError (`none` — the date-parse
and missing-column failures raise the same way), and otherwise it returns
the formatted non-empty frame. It never returns None, and never returns an
empty frame: the empty case raises before the cache write or the return is
reached, and only frames that passed this check are ever cached. -/
def fetch_data (download : List Bar) : Option (List Bar) :=
  if download.isEmpty then none else some download

/- optimization.py, run_single_optimization as executed: the
`data_df = fetch_data(...)` call is not wrapped in try/except, so the
ValueError raised on missing data propagates out of the worker (`none`);
only on a successful fetch does the body run — and then the None/empty
sentinel guard inside run_single_optimization can never fire, since
fetch_data only ever returns non-empty frames. -/
def run_single_optimization_exec (fast slow : ℕ) (cash : ℚ) (download : List Bar)
    (ending_value : ℚ) (drawdown_analysis : Option ℚ) : Option OptResult :=
  match fetch_data download with
  | none => none
  | some df => some (run_single_optimization fast slow cash (some df) ending_value drawdown_analysis)

/- optimization.py, run_optimization's worker pool: pool.map evaluates one
worker per grid point in submission order and, if any worker raised, re-raises
that exception in the parent, aborting the sweep before any result is
collected or the CSV is written. `none` is that abort; `some rows` is the
ordered result table. The per-point external inputs (download outcome, ending
value, drawdown reading) are a function `env` of the grid point. -/
def run_optimization_exec (fasts slows : List ℕ) (cash : ℚ)
    (env : ℕ → ℕ → List Bar × ℚ × Option ℚ) : Option (List OptResult) :=
  (param_grid fasts slows).mapM fun pt =>
    run_single_optimization_exec pt.1 pt.2 cash (env pt.1 pt.2).1
      (env pt.1 pt.2).2.1 (env pt.1 pt.2).2.2

/- Python's builtin max over a nonempty iterable with a key function: fold
keeping the current best, replacing it only when a later element's key is
strictly greater — so the first of several tied maxima wins. -/
def pymax1 {α : Type} (key : α → ℚ) : α → List α → α
  | b, [] => b
  | b, x :: xs => pymax1 key (if key b < key x then x else b) xs

/- optimization.py, run_optimization:
     if not results: best = None else best = max(results, key=lambda x: x[2])
x[2] is the score field. -/
def best_of (results : List OptResult) : Option OptResult :=
  match results with
  | [] => none
  | x :: xs => some (pymax1 (fun r => r.score) x xs)

/- A concrete ticker symbol used when instantiating analyze_performance. -/
def sample_ticker : String := "AAPL"

/- Two concrete sweep rows with tied scores, used to exercise the
first-encountered tie-break of best_of. -/
def resultA : OptResult :=
  { fast := 5, slow := 15, score := 2, total_return := 10, drawdown := 5, label := "A" }

/- A second concrete sweep row with the same score as resultA. -/
def resultB : OptResult :=
  { fast := 7, slow := 20, score := 2, total_return := 30, drawdown := 15, label := "B" }

/- numpy population mean of a list (meaningful only for nonempty input; numpy
returns NaN on an empty array, which callers below surface as `none`). -/
def np_mean (l : List ℚ) : ℚ :=
  l.sum / l.length

/- numpy population variance (ddof = 0): mean squared deviation from the mean.
np.std is its square root. -/
def np_var (l : List ℚ) : ℚ :=
  np_mean (l.map fun x => (x - np_mean l) ^ 2)

/- analysis.py, calculate_sharpe_ratio:
     excess_returns = returns - risk_free_rate
     std = np.std(excess_returns)
     if std == 0: return 0.0
     return np.mean(excess_returns) / std * sqrt(252)
np.std of an empty array is NaN; NaN == 0 is false, so the NaN then flows
through the division and the result is NaN — modelled as `none`. For a
nonempty series the guard `std == 0` coincides with zero variance, since the
population variance is nonnegative and sqrt vanishes only at 0. -/
noncomputable def calculate_sharpe (returns : List ℚ) (risk_free_rate : ℚ) : Option ℝ :=
  let excess := returns.map fun r => r - risk_free_rate
  if excess = [] then none
  else if np_var excess = 0 then some 0
  else some (((np_mean excess : ℚ) : ℝ) / Real.sqrt ((np_var excess : ℚ) : ℝ) * Real.sqrt 252)

/- Python 3 round(): round half to even (banker's rounding) of x to an
integer. -/
def round_half_even {α : Type} [LinearOrderedField α] [FloorRing α] (x : α) : ℤ :=
  if x - ⌊x⌋ < 1 / 2 then ⌊x⌋
  else if (1 : α) / 2 < x - ⌊x⌋ then ⌊x⌋ + 1
  else if ⌊x⌋ % 2 = 0 then ⌊x⌋ else ⌊x⌋ + 1

/- Python 3 round(x, ndigits) on an exact value. -/
def pyround {α : Type} [LinearOrderedField α] [FloorRing α] (ndigits : ℕ) (x : α) : α :=
  ((round_half_even (x * 10 ^ ndigits) : ℤ) : α) / 10 ^ ndigits

/- The performance_metrics record built by analysis.analyze_performance. -/
structure PerformanceMetrics where
  ticker : String
  total_return_pct : ℚ
  sharpe : Option ℝ
  max_drawdown_pct : ℚ
  trade_count : ℕ
  t_statistic : ℝ
  p_value : ℝ

/- analysis.py, analyze_performance. Broker values and the per-period return
series come from the external engine; the Student t statistic and p-value are
computed by scipy (external collaborator) and passed through rounded. The
try/except around `drawdown_analysis.max.drawdown` is modelled by an Option:
`none` means the analyzer reading raised, and the except branch substitutes
0.0 — the single-run default, distinct from the sweep's 100 penalty. -/
noncomputable def analyze_performance (ticker : String) (starting_value ending_value : ℚ)
    (returns : List ℚ) (t_stat p_value : ℝ) (trade_count : ℕ)
    (drawdown_analysis : Option ℚ) : PerformanceMetrics :=
  let total_return := (ending_value - starting_value) / starting_value * 100
  let sharpe_val := calculate_sharpe returns 0
  let max_drawdown := drawdown_analysis.getD 0
  { ticker := ticker
    total_return_pct := pyround 2 total_return
    sharpe := sharpe_val.map (pyround 2)
    max_drawdown_pct := pyround 2 max_drawdown
    trade_count := trade_count
    t_statistic := pyround 2 t_stat
    p_value := pyround 4 p_value }

/- A single trailing-stop update never lowers the stop. -/
theorem le_trailingUpdate (stop close smoothed_atr stop_multiplier : ℚ) :
    stop ≤ trailingUpdate stop close smoothed_atr stop_multiplier := by
  simp only [trailingUpdate]
  split
  · exact le_of_lt (by assumption)
  · exact le_refl stop

/- The head of a scanl trace is its starting value. -/
theorem head_of_scanl (f : ℚ → ℚ × ℚ → ℚ) (b : ℚ) (l : List (ℚ × ℚ)) :
    (List.scanl f b l).head? = some b := by
  cases l <;> rfl

/- A scanl trace of an inflationary step function is chain-nondecreasing. -/
theorem chain_le_scanl (f : ℚ → ℚ × ℚ → ℚ) (hf : ∀ s pr, s ≤ f s pr) :
    ∀ (l : List (ℚ × ℚ)) (b : ℚ), List.Chain' (fun x y => x ≤ y) (List.scanl f b l) := by
  intro l
  induction l with
  | nil => intro b; simp [List.scanl]
  | cons x xs ih =>
      intro b
      rw [List.scanl]
      refine List.chain'_cons'.mpr ⟨?_, ih (f b x)⟩
      intro y hy
      rw [head_of_scanl] at hy
      have : f b x = y := by
        cases hy
        rfl
      rw [← this]
      exact hf b x

/-- C1: for every open position and every sequence of per-bar trailing-stop
updates (each computing candidate = close − smoothed_atr * stop_multiplier and
replacing the stop only when candidate > stop_price), the stop price is
non-decreasing across consecutive updates, for every price path (rising,
falling, or oscillating). The trace pairs are arbitrary (close, smoothed_atr)
values, so every price path shape is covered. -/
theorem trailing_stop_monotone (stop0 stop_multiplier : ℚ) (bars : List (ℚ × ℚ)) :
    List.Chain' (fun a b => a ≤ b) (stopTrace stop0 stop_multiplier bars) :=
  chain_le_scanl _ (fun s pr => le_trailingUpdate s pr.1 pr.2 stop_multiplier) bars stop0

/- next() returns immediately, emitting nothing and changing nothing, while
an order is outstanding (`if self.order: return`). -/
theorem nextBar_of_pending (p : StratParams) (st : StratState) (b : BarCtx)
    (h : st.order.isSome = true) : nextBar p st b = some (st, none) := by
  unfold nextBar
  rw [if_pos h]

/-- C3: at every point of a run of the per-bar state machine, at most one
order is outstanding — the source keeps a single `self.order` slot, so a
pending entry (buy) and a pending exit (sell) can never be simultaneously
active — and while that slot is occupied next() returns without emitting a
new order request; order notifications never emit requests either, so any
step that emits a request starts from a state with no outstanding order. -/
theorem at_most_one_outstanding_order :
    (∀ st : StratState, ¬(pendingEntry st ∧ pendingExit st)) ∧
    (∀ (p : StratParams) (st : StratState) (b : BarCtx),
      st.order.isSome = true → nextBar p st b = some (st, none)) ∧
    (∀ (p : StratParams) (st : StratState) (e : StratEvent) (st2 : StratState) (r : OrderReq),
      stepEvent p st e = some (st2, some r) → st.order = none) := by
  refine ⟨?_, fun p st b h => nextBar_of_pending p st b h, ?_⟩
  · rintro st ⟨h1, h2⟩
    rw [pendingEntry] at h1
    rw [pendingExit] at h2
    rw [h1] at h2
    cases h2
  · intro p st e st2 r h
    cases e with
    | fill f a => simp [stepEvent] at h
    | bar b =>
        by_cases ho : st.order.isSome = true
        · rw [stepEvent, nextBar_of_pending p st b ho] at h
          simp at h
        · exact Option.not_isSome_iff_eq_none.mp ho

theorem at_most_one_outstanding_order_witness :
    nextBar defaultParams
        { order := some OrderSide.buy, position := 3, entry_price := some 10,
          current_stop := some 9, trade_count := 1 }
        { close := 12, crossover := 1, smoothed_atr := 1, equity := 10000 } =
      some ({ order := some OrderSide.buy, position := 3, entry_price := some 10,
              current_stop := some 9, trade_count := 1 }, none) :=
  at_most_one_outstanding_order.2.1 defaultParams _ _ rfl

/-- C4, counterexample: the claim quantifies over every equity, and at a
negative portfolio value (equity = -100, risk_fraction = 3/100,
smoothed_atr = 1, stop_multiplier = 1, min_stop = 1/2, commission_rate = 0,
so stop_distance = max (1*1) (1/2) = 1 > 0) the code's
size = int(risk_amount / ...) evaluates to -3, which is negative — refuting
the claimed conjunct "is never negative" (and, for the in-code guarded
value 0, the conjunct "equals floor" would fail instead, since
floor(-3) = -3 ≠ 0). -/
theorem compute_size_negative_at_negative_equity :
    compute_size (-100) (3 / 100) 1 1 (1 / 2) 0 = some (-3) ∧
    (0 : ℚ) < max ((1 : ℚ) * 1) (1 / 2) ∧ ¬(0 : ℤ) ≤ -3 := by
  refine ⟨?_, by norm_num, by norm_num⟩
  have hmax : max ((1 : ℚ) * 1) (1 / 2) = 1 := by norm_num
  simp only [compute_size, pyInt, hmax]
  norm_num
  rw [show (-3 : ℚ) = ((-3 : ℤ) : ℚ) by norm_num, Int.ceil_intCast]

/-- C4, amended: for every equity, risk_fraction, smoothed_atr,
stop_multiplier, min_stop and commission_rate with
stop_distance = max(smoothed_atr * stop_multiplier, min_stop) positive,
risk_amount = equity * risk_fraction nonnegative and commission_rate > -1,
the computed position size equals
floor((equity * risk_fraction) / (stop_distance * (1 + commission_rate))),
is never negative, and equals 0 exactly when
risk_amount < stop_distance * (1 + commission_rate). -/
theorem compute_size_formula
    (equity risk_fraction smoothed_atr stop_multiplier min_stop commission_rate : ℚ)
    (hsd : 0 < max (smoothed_atr * stop_multiplier) min_stop)
    (hrisk : 0 ≤ equity * risk_fraction)
    (hc : -1 < commission_rate) :
    compute_size equity risk_fraction smoothed_atr stop_multiplier min_stop commission_rate =
      some ⌊equity * risk_fraction /
        (max (smoothed_atr * stop_multiplier) min_stop * (1 + commission_rate))⌋ ∧
    0 ≤ ⌊equity * risk_fraction /
        (max (smoothed_atr * stop_multiplier) min_stop * (1 + commission_rate))⌋ ∧
    (⌊equity * risk_fraction /
        (max (smoothed_atr * stop_multiplier) min_stop * (1 + commission_rate))⌋ = 0 ↔
      equity * risk_fraction <
        max (smoothed_atr * stop_multiplier) min_stop * (1 + commission_rate)) := by
  have h1c : (0 : ℚ) < 1 + commission_rate := by linarith
  have hd : 0 < max (smoothed_atr * stop_multiplier) min_stop * (1 + commission_rate) :=
    mul_pos hsd h1c
  have hq : 0 ≤ equity * risk_fraction /
      (max (smoothed_atr * stop_multiplier) min_stop * (1 + commission_rate)) :=
    div_nonneg hrisk hd.le
  refine ⟨?_, ?_, ?_⟩
  · simp only [compute_size, pyInt]
    rw [if_neg hd.ne', if_pos hq]
  · exact Int.le_floor.mpr (by exact_mod_cast hq)
  · rw [Int.floor_eq_zero_iff, Set.mem_Ico]
    constructor
    · intro hmem
      exact (div_lt_one hd).mp hmem.2
    · intro hlt
      exact ⟨hq, (div_lt_one hd).mpr hlt⟩

theorem compute_size_formula_witness :
    compute_size 100 (3 / 100) 1 2 (1 / 2) 0 =
      some ⌊(100 : ℚ) * (3 / 100) / (max ((1 : ℚ) * 2) (1 / 2) * (1 + 0))⌋ ∧
    0 ≤ ⌊(100 : ℚ) * (3 / 100) / (max ((1 : ℚ) * 2) (1 / 2) * (1 + 0))⌋ ∧
    (⌊(100 : ℚ) * (3 / 100) / (max ((1 : ℚ) * 2) (1 / 2) * (1 + 0))⌋ = 0 ↔
      (100 : ℚ) * (3 / 100) < max ((1 : ℚ) * 2) (1 / 2) * (1 + 0)) :=
  compute_size_formula 100 (3 / 100) 1 2 (1 / 2) 0 (by norm_num) (by norm_num) (by norm_num)

/-- C5, counterexample: at equity = 1, risk_fraction = 1, smoothed_atr = 0,
stop_multiplier = 1, min_stop = 0, commission_rate = 0, the stop distance
max(0 * 1, 0) = 0 is non-positive, and the source performs the division
risk_amount / (stop_distance * (1 + commission)) with no stop-distance guard:
Python raises ZeroDivisionError (modelled as `none`), so the sizing does not
return 0 as the claim states. -/
theorem size_division_fault_at_zero_stop_distance :
    size_decision 1 1 0 1 0 0 = none ∧
    max ((0 : ℚ) * 1) 0 ≤ 0 ∧ size_decision 1 1 0 1 0 0 ≠ some 0 := by
  have h : compute_size 1 1 0 1 0 0 = none := by
    simp only [compute_size]
    norm_num
  refine ⟨?_, by norm_num, ?_⟩
  · simp only [size_decision, h]
  · simp only [size_decision, h]
    intro hc
    cases hc

/-- C5, amended: for every input whose divisor
stop_distance * (1 + commission_rate) is nonzero, the sizing expression
evaluates without a division fault, and whenever the computed size is ≤ 0
the position sizing returns 0 (no trade). The source guards only
`size <= 0`; it performs no stop-distance guard, so a zero divisor —
possible only when min_stop and smoothed_atr * stop_multiplier are both
non-positive, or when commission_rate = -1 — faults instead of returning 0. -/
theorem size_guard
    (equity risk_fraction smoothed_atr stop_multiplier min_stop commission_rate : ℚ)
    (hd : max (smoothed_atr * stop_multiplier) min_stop * (1 + commission_rate) ≠ 0) :
    (∃ s, compute_size equity risk_fraction smoothed_atr stop_multiplier min_stop
        commission_rate = some s) ∧
    (∀ s, compute_size equity risk_fraction smoothed_atr stop_multiplier min_stop
        commission_rate = some s → s ≤ 0 →
      size_decision equity risk_fraction smoothed_atr stop_multiplier min_stop
        commission_rate = some 0) := by
  constructor
  · refine ⟨pyInt (equity * risk_fraction /
      (max (smoothed_atr * stop_multiplier) min_stop * (1 + commission_rate))), ?_⟩
    simp only [compute_size]
    rw [if_neg hd]
  · intro s hs hle
    simp only [size_decision, hs]
    rw [if_pos hle]

theorem size_guard_witness :
    (∃ s, compute_size 0 1 1 1 1 0 = some s) ∧
    (∀ s, compute_size 0 1 1 1 1 0 = some s → s ≤ 0 →
      size_decision 0 1 1 1 1 0 = some 0) :=
  size_guard 0 1 1 1 1 0 (by norm_num)

/- fetch_data's contract: a successful return is always a non-empty frame,
so the None/empty sentinel guard inside run_single_optimization is
unreachable in the executed program. -/
theorem fetch_data_success_nonempty (download df : List Bar)
    (h : fetch_data download = some df) : df ≠ [] := by
  by_cases he : download.isEmpty
  · simp [fetch_data, he] at h
  · simp [fetch_data, he] at h
    subst h
    simpa using he

/-- C2: code-bug evidence. run_single_optimization's own None/empty guard
returns the sentinel row (0, 0, 100) and logs "Skipping this optimization",
so the claim states the code's evident intent — but fetch_data raises
ValueError on a missing or empty download instead of ever returning None or
an empty frame, run_single_optimization does not catch it, and pool.map
re-raises it in the parent. Evaluated at the failing input — a one-point
grid (fast = 5, slow = 15) whose download is empty — the fetch raises, the
worker propagates the exception, and the executed sweep aborts with no
result rows at all, rather than recording the sentinel for that point and
continuing; the final conjunct shows the sentinel the dead guard would have
produced, matching the claim's intended behavior. -/
theorem sweep_aborts_on_missing_data :
    fetch_data [] = none ∧
    run_single_optimization_exec 5 15 1000 [] 0 none = none ∧
    run_optimization_exec [5] [15] 1000 (fun _ _ => ([], 0, none)) = none ∧
    run_single_optimization 5 15 1000 none 0 none = sentinelResult 5 15 := by
  refine ⟨rfl, rfl, ?_, rfl⟩
  rfl

/- The numpy population variance of a rational list is nonnegative. -/
theorem np_var_nonneg (l : List ℚ) : 0 ≤ np_var l := by
  unfold np_var np_mean
  apply div_nonneg
  · apply List.sum_nonneg
    intro x hx
    rw [List.mem_map] at hx
    obtain ⟨y, _, rfl⟩ := hx
    exact sq_nonneg _
  · exact_mod_cast Nat.zero_le _

/- The standard deviation (square root of the population variance) vanishes
exactly when the variance does. -/
theorem sqrt_var_eq_zero_iff (l : List ℚ) :
    Real.sqrt ((np_var l : ℚ) : ℝ) = 0 ↔ np_var l = 0 := by
  rw [Real.sqrt_eq_zero']
  constructor
  · intro hle
    exact le_antisymm (by exact_mod_cast hle) (np_var_nonneg l)
  · intro he
    rw [he]
    norm_num

/-- C6, counterexample: the claim quantifies over every return series, but
for the empty series numpy's std is NaN (with a degrees-of-freedom warning),
the guard `std == 0` is false on NaN, and the NaN flows through
mean/std*sqrt(252), so the source returns NaN — modelled as `none` — rather
than a real number; the claimed "never NaN" fails at this input. -/
theorem sharpe_nan_on_empty_series :
    calculate_sharpe [] 0 = none ∧ ∀ x : ℝ, calculate_sharpe [] 0 ≠ some x := by
  constructor
  · simp [calculate_sharpe]
  · intro x hx
    simp [calculate_sharpe] at hx

/-- C6, amended: for every non-empty return series, the Sharpe-ratio
computation returns 0.0 when the standard deviation of the excess returns
(returns minus risk_free_rate, default 0) is zero — never NaN and never a
division fault — and otherwise returns mean(excess)/stddev(excess)*sqrt(252)
with 252 a fixed constant. -/
theorem sharpe_zero_std_guard (returns : List ℚ) (risk_free_rate : ℚ)
    (h : returns ≠ []) :
    (Real.sqrt ((np_var (returns.map fun r => r - risk_free_rate) : ℚ) : ℝ) = 0 →
      calculate_sharpe returns risk_free_rate = some 0) ∧
    (Real.sqrt ((np_var (returns.map fun r => r - risk_free_rate) : ℚ) : ℝ) ≠ 0 →
      calculate_sharpe returns risk_free_rate =
        some (((np_mean (returns.map fun r => r - risk_free_rate) : ℚ) : ℝ) /
          Real.sqrt ((np_var (returns.map fun r => r - risk_free_rate) : ℚ) : ℝ) *
          Real.sqrt 252)) := by
  have hne : ¬(returns.map fun r => r - risk_free_rate) = [] := by
    simp [List.map_eq_nil_iff, h]
  constructor
  · intro h0
    have hv : np_var (returns.map fun r => r - risk_free_rate) = 0 :=
      (sqrt_var_eq_zero_iff _).mp h0
    simp only [calculate_sharpe]
    rw [if_neg hne, if_pos hv]
  · intro h0
    have hv : ¬np_var (returns.map fun r => r - risk_free_rate) = 0 :=
      fun hc => h0 ((sqrt_var_eq_zero_iff _).mpr hc)
    simp only [calculate_sharpe]
    rw [if_neg hne, if_neg hv]

theorem sharpe_zero_std_guard_witness : calculate_sharpe [1, 1, 1] 0 = some 0 := by
  have h0 : np_var ([1, 1, 1].map fun r => r - (0 : ℚ)) = 0 := by
    norm_num [np_var, np_mean]
  exact (sharpe_zero_std_guard [1, 1, 1] 0 (by simp)).1
    (by rw [h0]; simp)

/-- C7: for a successfully evaluated grid point the sweep's combined score
equals total_return_pct / max(1, drawdown_pct); consequently any two
drawdowns in [0, 1] give the same score for the same return (the max floor
pins the divisor to 1), and in particular
score(total_return = 10, drawdown = 0) = score(total_return = 10, drawdown = 0.5). -/
theorem score_floor (fast slow : ℕ) (cash : ℚ) (df : List Bar) (ending_value : ℚ)
    (dd : Option ℚ) (hdf : df ≠ []) :
    ((run_single_optimization fast slow cash (some df) ending_value dd).score =
      (run_single_optimization fast slow cash (some df) ending_value dd).total_return /
        max 1 (run_single_optimization fast slow cash (some df) ending_value dd).drawdown) ∧
    (∀ total_return d1 d2 : ℚ, 0 ≤ d1 → d1 ≤ 1 → 0 ≤ d2 → d2 ≤ 1 →
      sweep_score total_return d1 = sweep_score total_return d2) ∧
    sweep_score 10 0 = sweep_score 10 (1 / 2) := by
  obtain ⟨x, xs, rfl⟩ := List.exists_cons_of_ne_nil hdf
  refine ⟨?_, ?_, ?_⟩
  · simp [run_single_optimization, sweep_score]
  · intro total_return d1 d2 _ h1 _ h2
    unfold sweep_score
    rw [max_eq_left h1, max_eq_left h2]
  · norm_num [sweep_score]

theorem score_floor_witness :
    (run_single_optimization 5 15 1000
        (some [{ close := 1, high := 1, low := 1, opn := 1, volume := 1 }]) 1100
        (some 5)).score =
      (run_single_optimization 5 15 1000
        (some [{ close := 1, high := 1, low := 1, opn := 1, volume := 1 }]) 1100
        (some 5)).total_return /
        max 1 (run_single_optimization 5 15 1000
          (some [{ close := 1, high := 1, low := 1, opn := 1, volume := 1 }]) 1100
          (some 5)).drawdown :=
  (score_floor 5 15 1000 [{ close := 1, high := 1, low := 1, opn := 1, volume := 1 }]
    1100 (some 5) (by simp)).1

/-- C10: whenever the drawdown analyzer reading is unavailable (the access
raises and the except branch runs), the single-run analyze_performance path
reports max drawdown 0.0 while the sweep's run_single_optimization path
substitutes the large penalty value 100 — the two defaults differ and each
call site keeps its own. -/
theorem drawdown_default_divergence (fast slow : ℕ) (cash : ℚ) (df : List Bar)
    (ending_value : ℚ) (ticker : String) (sv ev : ℚ) (rets : List ℚ)
    (t p : ℝ) (tc : ℕ) (hdf : df ≠ []) :
    (run_single_optimization fast slow cash (some df) ending_value none).drawdown = 100 ∧
    (analyze_performance ticker sv ev rets t p tc none).max_drawdown_pct = 0 ∧
    (100 : ℚ) ≠ 0 := by
  obtain ⟨x, xs, rfl⟩ := List.exists_cons_of_ne_nil hdf
  refine ⟨by simp [run_single_optimization], ?_, by norm_num⟩
  simp only [analyze_performance, Option.getD]
  norm_num [pyround, round_half_even]

theorem drawdown_default_divergence_witness :
    (run_single_optimization 5 15 1000
        (some [{ close := 1, high := 1, low := 1, opn := 1, volume := 1 }]) 1100
        none).drawdown = 100 ∧
    (analyze_performance sample_ticker 1000 1100 [1, 2] 0 0 3 none).max_drawdown_pct = 0 ∧
    (100 : ℚ) ≠ 0 :=
  drawdown_default_divergence 5 15 1000
    [{ close := 1, high := 1, low := 1, opn := 1, volume := 1 }] 1100 sample_ticker
    1000 1100 [1, 2] 0 0 3 (by simp)

/- The running best of Python max never has a smaller key than the start. -/
theorem pymax1_le_key {α : Type} (key : α → ℚ) :
    ∀ (xs : List α) (b : α), key b ≤ key (pymax1 key b xs) := by
  intro xs
  induction xs with
  | nil => intro b; exact le_refl _
  | cons x xs ih =>
      intro b
      rw [pymax1]
      refine le_trans ?_ (ih (if key b < key x then x else b))
      split
      · exact le_of_lt (by assumption)
      · exact le_refl _

/- The result of Python max dominates every scanned element. -/
theorem pymax1_mem_le {α : Type} (key : α → ℚ) :
    ∀ (xs : List α) (b a : α), a ∈ xs → key a ≤ key (pymax1 key b xs) := by
  intro xs
  induction xs with
  | nil => intro b a ha; cases ha
  | cons x xs ih =>
      intro b a ha
      rw [pymax1]
      rw [List.mem_cons] at ha
      rcases ha with rfl | ha
      · refine le_trans ?_ (pymax1_le_key key xs (if key b < key a then a else b))
        split
        · exact le_refl _
        · exact le_of_not_lt (by assumption)
      · exact ih (if key b < key x then x else b) a ha

/- Python max replaces the running best only on a strictly greater key, so
when the result comes from the list, every element strictly before it in
scan order has a strictly smaller key: the first of tied maxima wins. -/
theorem pymax1_first_argmax {α : Type} (key : α → ℚ) :
    ∀ (xs : List α) (b : α),
      pymax1 key b xs = b ∨
      ∃ l1 l2, xs = l1 ++ pymax1 key b xs :: l2 ∧
        key b < key (pymax1 key b xs) ∧
        ∀ a ∈ l1, key a < key (pymax1 key b xs) := by
  intro xs
  induction xs with
  | nil => intro b; exact Or.inl rfl
  | cons x xs ih =>
      intro b
      rw [pymax1]
      by_cases hbx : key b < key x
      · rw [if_pos hbx]
        rcases ih x with heq | ⟨l1, l2, hsplit, hlt, hall⟩
        · refine Or.inr ⟨[], xs, ?_, ?_, ?_⟩
          · rw [heq, List.nil_append]
          · rw [heq]; exact hbx
          · intro a ha; cases ha
        · refine Or.inr ⟨x :: l1, l2, ?_, lt_trans hbx hlt, ?_⟩
          · rw [List.cons_append, ← hsplit]
          · intro a ha
            rw [List.mem_cons] at ha
            rcases ha with rfl | ha
            · exact hlt
            · exact hall a ha
      · rw [if_neg hbx]
        rcases ih b with heq | ⟨l1, l2, hsplit, hlt, hall⟩
        · exact Or.inl heq
        · refine Or.inr ⟨x :: l1, l2, ?_, hlt, ?_⟩
          · rw [List.cons_append, ← hsplit]
          · intro a ha
            rw [List.mem_cons] at ha
            rcases ha with rfl | ha
            · exact lt_of_le_of_lt (le_of_not_lt hbx) hlt
            · exact hall a ha

/-- C8: for every non-empty list of collected sweep results, the selected
best result is an element attaining the maximal score over all results, and
it is the first such element in the list's order — every result strictly
before it in the (deterministic grid) iteration order has a strictly smaller
score, so ties among maximal scores resolve to the first encountered. -/
theorem best_is_first_argmax (results : List OptResult) (h : results ≠ []) :
    ∃ b l1 l2, best_of results = some b ∧ results = l1 ++ b :: l2 ∧
      (∀ a ∈ results, a.score ≤ b.score) ∧ (∀ a ∈ l1, a.score < b.score) := by
  cases results with
  | nil => exact absurd rfl h
  | cons x xs =>
      have hmem : ∀ a ∈ x :: xs,
          a.score ≤ (pymax1 (fun r => r.score) x xs).score := by
        intro a ha
        rw [List.mem_cons] at ha
        rcases ha with rfl | ha
        · exact pymax1_le_key (fun r => r.score) xs a
        · exact pymax1_mem_le (fun r => r.score) xs x a ha
      rcases pymax1_first_argmax (fun r => r.score) xs x with heq |
        ⟨l1, l2, hsplit, hlt, hall⟩
      · refine ⟨pymax1 (fun r => r.score) x xs, [], xs, rfl, ?_, hmem, ?_⟩
        · rw [heq, List.nil_append]
        · intro a ha; cases ha
      · refine ⟨pymax1 (fun r => r.score) x xs, x :: l1, l2, rfl, ?_, hmem, ?_⟩
        · rw [List.cons_append, ← hsplit]
        · intro a ha
          rw [List.mem_cons] at ha
          rcases ha with rfl | ha
          · exact hlt
          · exact hall a ha

theorem best_is_first_argmax_witness :
    ∃ b l1 l2, best_of [resultA, resultB] = some b ∧
      [resultA, resultB] = l1 ++ b :: l2 ∧
      (∀ a ∈ [resultA, resultB], a.score ≤ b.score) ∧
      (∀ a ∈ l1, a.score < b.score) :=
  best_is_first_argmax [resultA, resultB] (by simp)

/-- C9: grid generation produces exactly the cartesian product of the two
ordered candidate lists filtered to pairs where the slow (second) parameter
strictly exceeds the fast (first) parameter; for fast candidates [5, 10, 20]
and slow candidates [15, 25] it yields exactly
[(5,15), (5,25), (10,15), (10,25), (20,25)], with (20,15) excluded. -/
theorem grid_filtered_product :
    (∀ (fasts slows : List ℕ) (f s : ℕ),
      (f, s) ∈ param_grid fasts slows ↔ f ∈ fasts ∧ s ∈ slows ∧ f < s) ∧
    param_grid [5, 10, 20] [15, 25] =
      [(5, 15), (5, 25), (10, 15), (10, 25), (20, 25)] := by
  constructor
  · intro fasts slows f s
    induction fasts with
    | nil => simp [param_grid]
    | cons g gs ih =>
        simp only [param_grid, List.mem_append, List.mem_map, List.mem_filter,
          List.mem_cons, decide_eq_true_eq, Prod.mk.injEq, ih]
        constructor
        · rintro (⟨a, ⟨ha, hga⟩, rfl, rfl⟩ | ⟨hf, hs, hfs⟩)
          · exact ⟨Or.inl rfl, ha, hga⟩
          · exact ⟨Or.inr hf, hs, hfs⟩
        · rintro ⟨rfl | hf, hs, hfs⟩
          · exact Or.inl ⟨s, ⟨hs, hfs⟩, rfl, rfl⟩
          · exact Or.inr ⟨hf, hs, hfs⟩
  · rfl
